import Mathlib

/-!
# Verification of the `embedded-layout` core

Shallow embedding of the alignment / composition / padding / spacing core
(`src/align.rs`, `src/component.rs`, `src/padding.rs`,
`src/layout/linear/spacing.rs`) and proofs of the specification claims.

Modelling conventions:
* Rust `i32` values are modelled as `Int`.  Plain `i32` arithmetic (`+`, `-`,
  `*`, `/`) is modelled by exact integer arithmetic; the possibility of `i32`
  overflow in those plain operations is tracked separately by the `Checked`
  variants below, in which every plain operation is range-checked (this is the
  semantics of a Rust build with overflow checks, where an overflowing plain
  operation panics).  Rust `as` casts never panic: they reduce the value
  modulo `2^32`, and are modelled explicitly by `u32AsI32` / `i32AsU32` /
  `usizeAsI32`.  Rust saturating operations clamp into the `i32` range and are
  modelled by `saturating_add` / `saturating_sub`.
* Rust `u32` values (sizes) are modelled as `Nat`; a valid `u32` is `< 2^32`.
* The geometry primitives (`Point`, `Size`, `Rectangle` and their operations
  `component_min`, `component_max`, `bottom_right`, `with_corners`,
  `translate`) are the external `embedded-graphics` collaborators of the
  crate, embedded here with their documented semantics (see also spec §3:
  a degenerate rectangle has no `bottom_right`).
* A view is represented by its bounding box (a `Rectangle`): the `View`
  capability is exactly "has a bounding box and can be translated", and a
  `Rectangle` is its own bounding box.
-/

namespace EmbeddedLayout

/-- The smallest `i32` value, `-2^31`. -/
def i32Min : Int := -2147483648

/-- The largest `i32` value, `2^31 - 1`. -/
def i32Max : Int := 2147483647

/-- Two's-complement reduction of an integer into the `i32` range. -/
def wrap32 (n : Int) : Int := (n + 2147483648) % 4294967296 - 2147483648

/-- The Rust cast `u32 as i32` (two's complement, never panics). -/
def u32AsI32 (n : Nat) : Int := wrap32 (n : Int)

/-- The Rust cast `i32 as u32` (reduction modulo `2^32`, never panics). -/
def i32AsU32 (n : Int) : Nat := (n % 4294967296).toNat

/-- The Rust cast `usize as i32` (truncation to the low 32 bits, two's
complement, never panics). -/
def usizeAsI32 (n : Nat) : Int := wrap32 (n : Int)

/-- Rust `i32::saturating_add`. -/
def saturating_add (a b : Int) : Int := max i32Min (min i32Max (a + b))

/-- Rust `i32::saturating_sub`. -/
def saturating_sub (a b : Int) : Int := max i32Min (min i32Max (a - b))

/-- Range check for a single plain `i32` operation: the result of an
overflow-checked build, `none` meaning a panic. -/
def chk32 (n : Int) : Option Int := if i32Min ≤ n ∧ n ≤ i32Max then some n else none

/-- `embedded_graphics::geometry::Point`: an integer (x, y) pair. -/
structure Point where
  x : Int
  y : Int
deriving DecidableEq, Repr

/-- `embedded_graphics::geometry::Size`: unsigned width and height. -/
structure Size where
  width : Nat
  height : Nat
deriving DecidableEq, Repr

/-- `Point::component_min`. -/
def Point.component_min (a b : Point) : Point := ⟨min a.x b.x, min a.y b.y⟩

/-- `Point::component_max`. -/
def Point.component_max (a b : Point) : Point := ⟨max a.x b.x, max a.y b.y⟩

/-- `embedded_graphics::primitives::Rectangle`: a top-left corner and a
non-negative size. -/
structure Rectangle where
  top_left : Point
  size : Size
deriving DecidableEq, Repr

/-- `Rectangle::bottom_right`: `Some(top_left + size - (1, 1))` for a
non-degenerate rectangle, `None` when the width or the height is zero. -/
def Rectangle.bottom_right (r : Rectangle) : Option Point :=
  if 0 < r.size.width ∧ 0 < r.size.height then
    some ⟨r.top_left.x + (r.size.width : Int) - 1, r.top_left.y + (r.size.height : Int) - 1⟩
  else none

/-- `Rectangle::with_corners`: the rectangle containing both corner points
(per-axis minimum as `top_left`, absolute difference plus one as extent). -/
def Rectangle.with_corners (c1 c2 : Point) : Rectangle :=
  ⟨⟨min c1.x c2.x, min c1.y c2.y⟩, ⟨(c1.x - c2.x).natAbs + 1, (c1.y - c2.y).natAbs + 1⟩⟩

/-- `Transform::translate` for `Rectangle`: move the top-left corner, keep
the size. -/
def Rectangle.translate (r : Rectangle) (p : Point) : Rectangle :=
  ⟨⟨r.top_left.x + p.x, r.top_left.y + p.y⟩, r.size⟩

/-- `AlignmentPosition` (src/align.rs). -/
inductive AlignmentPosition where
  | Start
  | Center
  | End
  | Before
  | After
deriving DecidableEq, Repr

/-- `Alignment` (src/align.rs): an optional position per axis. -/
structure Alignment where
  vertical : Option AlignmentPosition
  horizontal : Option AlignmentPosition
deriving DecidableEq, Repr

/-- The per-axis offset computation of `Alignment::offset`
(src/align.rs lines 126-143 for x with `lo = top_left.x`,
`len = size.width as i32`; lines 145-162 are the same match with
y / height).  `Int.tdiv` is Rust's truncating `i32` division. -/
def axisOffset (pos : Option AlignmentPosition) (target_lo : Int) (target_len : Nat)
    (reference_lo : Int) (reference_len : Nat) : Int :=
  match pos with
  | some .Start => reference_lo - target_lo
  | some .Center =>
      (reference_lo + (u32AsI32 reference_len).tdiv 2)
        - (target_lo + (u32AsI32 target_len).tdiv 2)
  | some .End =>
      (reference_lo + u32AsI32 reference_len) - (target_lo + u32AsI32 target_len)
  | some .Before => reference_lo - (target_lo + u32AsI32 target_len)
  | some .After => (reference_lo + u32AsI32 reference_len) - target_lo
  | none => 0

/-- `Alignment::offset` (src/align.rs lines 125-165): the x component from
the horizontal position over x / width, the y component from the vertical
position over y / height. -/
def Alignment.offset (a : Alignment) (target reference : Rectangle) : Point :=
  ⟨axisOffset a.horizontal target.top_left.x target.size.width
      reference.top_left.x reference.size.width,
   axisOffset a.vertical target.top_left.y target.size.height
      reference.top_left.y reference.size.height⟩

/-- The per-axis offset computation with every plain `i32` operation
range-checked (`none` = panic of an overflow-checked build).  The `as i32`
casts and the division by two cannot overflow and are not checked. -/
def axisOffsetChecked (pos : Option AlignmentPosition) (target_lo : Int) (target_len : Nat)
    (reference_lo : Int) (reference_len : Nat) : Option Int :=
  match pos with
  | some .Start => chk32 (reference_lo - target_lo)
  | some .Center => do
      let rm ← chk32 (reference_lo + (u32AsI32 reference_len).tdiv 2)
      let tm ← chk32 (target_lo + (u32AsI32 target_len).tdiv 2)
      chk32 (rm - tm)
  | some .End => do
      let re ← chk32 (reference_lo + u32AsI32 reference_len)
      let te ← chk32 (target_lo + u32AsI32 target_len)
      chk32 (re - te)
  | some .Before => do
      let te ← chk32 (target_lo + u32AsI32 target_len)
      chk32 (reference_lo - te)
  | some .After => do
      let re ← chk32 (reference_lo + u32AsI32 reference_len)
      chk32 (re - target_lo)
  | none => some 0

/-- `Alignment::offset` under overflow-checked arithmetic: `none` exactly
when some plain `i32` operation inside the offset computation overflows. -/
def Alignment.offsetChecked (a : Alignment) (target reference : Rectangle) : Option Point := do
  let x ← axisOffsetChecked a.horizontal target.top_left.x target.size.width
      reference.top_left.x reference.size.width
  let y ← axisOffsetChecked a.vertical target.top_left.y target.size.height
      reference.top_left.y reference.size.height
  some ⟨x, y⟩

/-- `Align::align_to` / `align_to_mut` (src/align.rs lines 52-70) for a view
represented by its bounding box: translate the target by the computed
offset.  The reference is never moved. -/
def align_to (t : Rectangle) (reference : Rectangle) (a : Alignment) : Rectangle :=
  t.translate (a.offset t reference)

/-- The per-axis offset table of spec §4.1, written with the spec's words:
`lo` is the near edge, `len` the extent as an exact (unsigned) integer,
`Center` uses truncating integer division.  This definition follows the
SPEC, to be compared with the source-derived `axisOffset`. -/
def specAxisOffset (pos : Option AlignmentPosition) (target_lo target_len reference_lo reference_len : Int) : Int :=
  match pos with
  | some .Start => reference_lo - target_lo
  | some .Center =>
      (reference_lo + reference_len.tdiv 2) - (target_lo + target_len.tdiv 2)
  | some .End => (reference_lo + reference_len) - (target_lo + target_len)
  | some .Before => reference_lo - (target_lo + target_len)
  | some .After => (reference_lo + reference_len) - target_lo
  | none => 0

/-- The full offset contract of spec §4.1 assembled from the per-axis table
(x from the horizontal position, y from the vertical position). -/
def specOffset (a : Alignment) (target reference : Rectangle) : Point :=
  ⟨specAxisOffset a.horizontal target.top_left.x (target.size.width : Int)
      reference.top_left.x (reference.size.width : Int),
   specAxisOffset a.vertical target.top_left.y (target.size.height : Int)
      reference.top_left.y (reference.size.height : Int)⟩

/-- `Padding<C>` (src/padding.rs): four signed margins around a child.  The
claims only need a child that is a view, represented by its bounding box. -/
structure Padding where
  top : Int
  right : Int
  bottom : Int
  left : Int
  child : Rectangle
deriving DecidableEq, Repr

/-- `Padding::all` (src/padding.rs lines 82-90). -/
def Padding.all (padding : Int) (child : Rectangle) : Padding :=
  ⟨padding, padding, padding, padding, child⟩

/-- `Padding::each` (src/padding.rs lines 93-101). -/
def Padding.each (top right bottom left : Int) (child : Rectangle) : Padding :=
  ⟨top, right, bottom, left, child⟩

/-- `rect_with_padding` (src/padding.rs lines 10-25): apply the margins to
the rectangle's four edges with saturating `i32` arithmetic (the right and
bottom edges of a degenerate rectangle fall back to its top-left), then
rebuild a rectangle from the two resulting corners with `with_corners`. -/
def rect_with_padding (rect : Rectangle) (top right bottom left : Int) : Rectangle :=
  let rect_top := rect.top_left.y
  let rect_right := (rect.bottom_right.getD rect.top_left).x
  let rect_bottom := (rect.bottom_right.getD rect.top_left).y
  let rect_left := rect.top_left.x
  let final_top := saturating_sub rect_top top
  let final_right := saturating_add rect_right right
  let final_bottom := saturating_add rect_bottom bottom
  let final_left := saturating_sub rect_left left
  Rectangle.with_corners ⟨final_left, final_top⟩ ⟨final_right, final_bottom⟩

/-- `Dimensions::bounding_box` for `Padding` (src/padding.rs lines 104-118):
the child's bounding box (a `Rectangle` is its own bounding box) with the
margins applied. -/
def Padding.bounding_box (p : Padding) : Rectangle :=
  rect_with_padding p.child p.top p.right p.bottom p.left

/-- `Transform::translate` for `Padding` (src/padding.rs lines 125-133).
The source assigns `left: self.bottom` (line 130), faithfully reproduced
here. -/
def Padding.translate (p : Padding) (by' : Point) : Padding :=
  ⟨p.top, p.right, p.bottom, p.bottom, p.child.translate by'⟩

/-- `Transform::translate_mut` for `Padding` (src/padding.rs lines 136-139):
only the child is translated, the margins are untouched. -/
def Padding.translate_mut (p : Padding) (by' : Point) : Padding :=
  ⟨p.top, p.right, p.bottom, p.left, p.child.translate by'⟩

/-- `Component<A, B>` (src/component.rs): an ordered pair of child views,
each represented by its bounding box. -/
structure Component where
  child_a : Rectangle
  child_b : Rectangle
deriving DecidableEq, Repr

/-- `Dimensions::bounding_box` for `Component` (src/component.rs lines
27-40): component-wise minimum of the children's top-left corners and
component-wise maximum of their bottom-right corners (a degenerate child's
absent bottom-right falls back to its top-left), rebuilt with
`with_corners`. -/
def Component.bounding_box (c : Component) : Rectangle :=
  let bb_a := c.child_a
  let bb_b := c.child_b
  let top_left := bb_a.top_left.component_min bb_b.top_left
  let bottom_right :=
    (bb_a.bottom_right.getD bb_a.top_left).component_max (bb_b.bottom_right.getD bb_b.top_left)
  Rectangle.with_corners top_left bottom_right

/-- `StyledDrawable::draw_styled` for `Component` (src/component.rs lines
129-139).  A child's draw is modelled as a function from a style and a
target to the mutated target paired with a `Result` (the Rust `&mut D`
receiver is modelled by explicit state passing): child A is drawn first,
`?` short-circuits on its error, then child B is drawn against the target
A left behind, and on success the outputs are paired. -/
def Component.draw_styled {Sty Tgt Err OutA OutB : Type}
    (draw_a : Sty → Tgt → Tgt × Except Err OutA)
    (draw_b : Sty → Tgt → Tgt × Except Err OutB)
    (style : Sty) (target : Tgt) : Tgt × Except Err (OutA × OutB) :=
  match draw_a style target with
  | (t1, .error e) => (t1, .error e)
  | (t1, .ok a) =>
    match draw_b style t1 with
    | (t2, .error e) => (t2, .error e)
    | (t2, .ok b) => (t2, .ok (a, b))

/-- `FixedMargin::modify_measurement` (src/layout/linear/spacing.rs lines
34-40): `g` is the `FixedMargin`'s gap field.  The casts
`measured_size as i32`, `(objects - 1) as i32` and the final `as u32` are
modelled explicitly; the inner addition and multiplication are exact. -/
def FixedMargin.modify_measurement (g : Int) (measured_size : Nat) (objects : Nat) : Nat :=
  if objects = 0 then
    measured_size
  else
    i32AsU32 (u32AsI32 measured_size + g * usizeAsI32 (objects - 1))

/-- `FixedMargin::modify_placement` (src/layout/linear/spacing.rs lines
43-49): zero for the first object, the gap for every later one. -/
def FixedMargin.modify_placement (g : Int) (n : Nat) (_total_size : Nat) : Int :=
  if n = 0 then 0 else g

/-- The set of x coordinates (columns) covered by a rectangle: empty for a
zero-width rectangle. -/
def coversX (r : Rectangle) (c : Int) : Prop :=
  r.top_left.x ≤ c ∧ c < r.top_left.x + (r.size.width : Int)

/-- The set of y coordinates (rows) covered by a rectangle: empty for a
zero-height rectangle. -/
def coversY (r : Rectangle) (c : Int) : Prop :=
  r.top_left.y ≤ c ∧ c < r.top_left.y + (r.size.height : Int)

/-! ## Helper lemmas -/

lemma u32AsI32_of_le {n : Nat} (h : n ≤ 2147483647) : u32AsI32 n = (n : Int) := by
  unfold u32AsI32 wrap32
  omega

lemma wrap32_emod (x : Int) : wrap32 x % 4294967296 = x % 4294967296 := by
  unfold wrap32
  omega

lemma natCast_tdiv_two (n : Nat) : ((n : Int)).tdiv 2 = ((n / 2 : Nat) : Int) := rfl

lemma chk32_eq_some {n : Int} (h1 : i32Min ≤ n) (h2 : n ≤ i32Max) : chk32 n = some n := by
  unfold chk32
  rw [if_pos ⟨h1, h2⟩]

lemma with_corners_of_le {c1 c2 : Point} (hx : c1.x ≤ c2.x) (hy : c1.y ≤ c2.y) :
    Rectangle.with_corners c1 c2
      = ⟨c1, ⟨(c2.x - c1.x + 1).toNat, (c2.y - c1.y + 1).toNat⟩⟩ := by
  obtain ⟨x1, y1⟩ := c1
  obtain ⟨x2, y2⟩ := c2
  simp only [Rectangle.with_corners, Rectangle.mk.injEq, Point.mk.injEq, Size.mk.injEq]
  simp only at hx hy
  refine ⟨⟨?_, ?_⟩, ?_, ?_⟩ <;> omega

lemma bottom_right_with_corners_of_le {c1 c2 : Point} (hx : c1.x ≤ c2.x) (hy : c1.y ≤ c2.y) :
    (Rectangle.with_corners c1 c2).bottom_right = some c2 := by
  obtain ⟨x1, y1⟩ := c1
  obtain ⟨x2, y2⟩ := c2
  simp only at hx hy
  simp only [Rectangle.with_corners, Rectangle.bottom_right]
  rw [if_pos (by constructor <;> omega)]
  simp only [Option.some.injEq, Point.mk.injEq]
  constructor <;> omega

lemma top_left_le_getD_x (r : Rectangle) :
    r.top_left.x ≤ (r.bottom_right.getD r.top_left).x := by
  unfold Rectangle.bottom_right
  split
  · next h => simp only [Option.getD_some]; omega
  · simp only [Option.getD_none]; omega

lemma top_left_le_getD_y (r : Rectangle) :
    r.top_left.y ≤ (r.bottom_right.getD r.top_left).y := by
  unfold Rectangle.bottom_right
  split
  · next h => simp only [Option.getD_some]; omega
  · simp only [Option.getD_none]; omega

lemma translate_zero (r : Rectangle) : r.translate ⟨0, 0⟩ = r := by
  simp [Rectangle.translate]

lemma axisOffset_self_cancel (pos : Option AlignmentPosition) (tlo : Int) (tlen : Nat)
    (rlo : Int) (rlen : Nat) :
    axisOffset pos (tlo + axisOffset pos tlo tlen rlo rlen) tlen rlo rlen = 0 := by
  cases pos with
  | none => rfl
  | some p => cases p <;> simp only [axisOffset] <;> ring

lemma axisOffset_eq_spec (pos : Option AlignmentPosition) (tlo : Int) (tlen : Nat)
    (rlo : Int) (rlen : Nat) (ht : tlen ≤ 2147483647) (hr : rlen ≤ 2147483647) :
    axisOffset pos tlo tlen rlo rlen = specAxisOffset pos tlo (tlen : Int) rlo (rlen : Int) := by
  cases pos with
  | none => rfl
  | some p =>
    cases p <;> simp only [axisOffset, specAxisOffset, u32AsI32_of_le ht, u32AsI32_of_le hr]

/-! ## Claims -/

/-- C4.  Aligning is idempotent against an unchanged reference: after a
first `align_to` with `(r, a)`, a second call with the same `r` and `a`
computes the offset `(0, 0)` and leaves the aligned target unchanged. -/
theorem align_to_idempotent (t r : Rectangle) (a : Alignment) :
    a.offset (align_to t r a) r = ⟨0, 0⟩
    ∧ align_to (align_to t r a) r a = align_to t r a := by
  have hx := axisOffset_self_cancel a.horizontal t.top_left.x t.size.width
    r.top_left.x r.size.width
  have hy := axisOffset_self_cancel a.vertical t.top_left.y t.size.height
    r.top_left.y r.size.height
  have hoff : a.offset (align_to t r a) r = ⟨0, 0⟩ := by
    simp only [align_to, Alignment.offset, Rectangle.translate] at hx hy ⊢
    rw [hx, hy]
  refine ⟨hoff, ?_⟩
  rw [align_to, hoff, translate_zero]

/-- C1 (amended).  For rectangles whose extents fit in `i32` (width and
height at most `2^31 - 1`, so that the `as i32` casts are value-preserving),
`Alignment::offset` equals exactly the spec's per-axis table formula on both
axes, with no special-casing of degenerate rectangles. -/
theorem offset_eq_spec_table (a : Alignment) (target reference : Rectangle)
    (h1 : target.size.width ≤ 2147483647) (h2 : target.size.height ≤ 2147483647)
    (h3 : reference.size.width ≤ 2147483647) (h4 : reference.size.height ≤ 2147483647) :
    a.offset target reference = specOffset a target reference := by
  simp only [Alignment.offset, specOffset,
    axisOffset_eq_spec _ _ _ _ _ h1 h3, axisOffset_eq_spec _ _ _ _ _ h2 h4]

/-- Witness for C1 at a concrete input: a degenerate target, `Center`
vertically and `After` horizontally. -/
theorem offset_eq_spec_table_witness :
    Alignment.offset ⟨some .Center, some .After⟩ ⟨⟨0, 0⟩, ⟨0, 0⟩⟩ ⟨⟨30, 20⟩, ⟨11, 31⟩⟩
      = specOffset ⟨some .Center, some .After⟩ ⟨⟨0, 0⟩, ⟨0, 0⟩⟩ ⟨⟨30, 20⟩, ⟨11, 31⟩⟩ :=
  offset_eq_spec_table _ _ _ (by decide) (by decide) (by decide) (by decide)

/-- C1 counterexample: for a reference of width `2^31` the `as i32` cast
wraps, and the computed x offset is `-2^31` while the spec's `After` table
formula gives `2^31`. -/
theorem offset_spec_table_counterexample :
    Alignment.offset ⟨none, some .After⟩ ⟨⟨0, 0⟩, ⟨1, 1⟩⟩ ⟨⟨0, 0⟩, ⟨2147483648, 1⟩⟩
      ≠ specOffset ⟨none, some .After⟩ ⟨⟨0, 0⟩, ⟨1, 1⟩⟩ ⟨⟨0, 0⟩, ⟨2147483648, 1⟩⟩ := by
  decide

/-- C5.  The composite's bounding box has the component-wise minimum of the
children's top-left corners as its top-left, and the component-wise maximum
of their bottom-right corners (with a degenerate child's absent bottom-right
replaced by that child's top-left) as its bottom-right. -/
theorem component_bounding_box_union (c : Component) :
    c.bounding_box.top_left = c.child_a.top_left.component_min c.child_b.top_left
    ∧ c.bounding_box.bottom_right
        = some ((c.child_a.bottom_right.getD c.child_a.top_left).component_max
            (c.child_b.bottom_right.getD c.child_b.top_left)) := by
  have hax := top_left_le_getD_x c.child_a
  have hay := top_left_le_getD_y c.child_a
  have hbx := top_left_le_getD_x c.child_b
  have hby := top_left_le_getD_y c.child_b
  have hx : (c.child_a.top_left.component_min c.child_b.top_left).x
      ≤ ((c.child_a.bottom_right.getD c.child_a.top_left).component_max
          (c.child_b.bottom_right.getD c.child_b.top_left)).x := by
    simp only [Point.component_min, Point.component_max]
    omega
  have hy : (c.child_a.top_left.component_min c.child_b.top_left).y
      ≤ ((c.child_a.bottom_right.getD c.child_a.top_left).component_max
          (c.child_b.bottom_right.getD c.child_b.top_left)).y := by
    simp only [Point.component_min, Point.component_max]
    omega
  constructor
  · rw [Component.bounding_box, with_corners_of_le hx hy]
  · rw [Component.bounding_box, bottom_right_with_corners_of_le hx hy]

/-- C3 (amended).  With the driving extent within `i32` (`≤ 2^31 - 1`):
aligning with an axis set to `After` places the target's near edge at the
reference's near edge plus the reference's extent (one unit past the far
edge), and `Before` places the target's far edge (near edge plus extent
minus one — for a zero-extent target, one before its single coordinate)
one unit before the reference's near edge; in each case every coordinate
covered by the aligned target lies outside the reference on that axis.
Stated for both axes; degenerate targets are covered. -/
theorem before_after_abutting (t r : Rectangle) (a : Alignment) :
    (a.horizontal = some .After → r.size.width ≤ 2147483647 →
      (align_to t r a).top_left.x = r.top_left.x + (r.size.width : Int)
      ∧ ∀ c : Int, coversX (align_to t r a) c → ¬ coversX r c)
    ∧ (a.horizontal = some .Before → t.size.width ≤ 2147483647 →
      (align_to t r a).top_left.x + (t.size.width : Int) - 1 = r.top_left.x - 1
      ∧ ∀ c : Int, coversX (align_to t r a) c → ¬ coversX r c)
    ∧ (a.vertical = some .After → r.size.height ≤ 2147483647 →
      (align_to t r a).top_left.y = r.top_left.y + (r.size.height : Int)
      ∧ ∀ c : Int, coversY (align_to t r a) c → ¬ coversY r c)
    ∧ (a.vertical = some .Before → t.size.height ≤ 2147483647 →
      (align_to t r a).top_left.y + (t.size.height : Int) - 1 = r.top_left.y - 1
      ∧ ∀ c : Int, coversY (align_to t r a) c → ¬ coversY r c) := by
  refine ⟨?_, ?_, ?_, ?_⟩ <;> intro ha hlen
  · have hedge : (align_to t r a).top_left.x = r.top_left.x + (r.size.width : Int) := by
      simp only [align_to, Rectangle.translate, Alignment.offset, ha, axisOffset,
        u32AsI32_of_le hlen]
      ring
    refine ⟨hedge, ?_⟩
    intro c hc hrc
    rw [coversX, hedge] at hc
    rw [coversX] at hrc
    omega
  · have hedge : (align_to t r a).top_left.x = r.top_left.x - (t.size.width : Int) := by
      simp only [align_to, Rectangle.translate, Alignment.offset, ha, axisOffset,
        u32AsI32_of_le hlen]
      ring
    have hsize : (align_to t r a).size.width = t.size.width := rfl
    refine ⟨by rw [hedge]; ring, ?_⟩
    intro c hc hrc
    rw [coversX, hedge, hsize] at hc
    rw [coversX] at hrc
    omega
  · have hedge : (align_to t r a).top_left.y = r.top_left.y + (r.size.height : Int) := by
      simp only [align_to, Rectangle.translate, Alignment.offset, ha, axisOffset,
        u32AsI32_of_le hlen]
      ring
    refine ⟨hedge, ?_⟩
    intro c hc hrc
    rw [coversY, hedge] at hc
    rw [coversY] at hrc
    omega
  · have hedge : (align_to t r a).top_left.y = r.top_left.y - (t.size.height : Int) := by
      simp only [align_to, Rectangle.translate, Alignment.offset, ha, axisOffset,
        u32AsI32_of_le hlen]
      ring
    have hsize : (align_to t r a).size.height = t.size.height := rfl
    refine ⟨by rw [hedge]; ring, ?_⟩
    intro c hc hrc
    rw [coversY, hedge, hsize] at hc
    rw [coversY] at hrc
    omega

/-- Witness for C3: a zero-extent target aligned `After` a reference on the
horizontal axis lands one unit past the reference's far edge. -/
theorem before_after_abutting_witness :
    (align_to ⟨⟨0, 0⟩, ⟨0, 0⟩⟩ ⟨⟨30, 20⟩, ⟨11, 31⟩⟩ ⟨none, some .After⟩).top_left.x
      = (30 : Int) + ((11 : Nat) : Int)
    ∧ ∀ c : Int, coversX (align_to ⟨⟨0, 0⟩, ⟨0, 0⟩⟩ ⟨⟨30, 20⟩, ⟨11, 31⟩⟩ ⟨none, some .After⟩) c
        → ¬ coversX ⟨⟨30, 20⟩, ⟨11, 31⟩⟩ c :=
  (before_after_abutting ⟨⟨0, 0⟩, ⟨0, 0⟩⟩ ⟨⟨30, 20⟩, ⟨11, 31⟩⟩ ⟨none, some .After⟩).1
    rfl (by decide)

/-- C3 counterexample: for a reference of width `2^31` the claim fails —
the reference's far edge is at x = `2^31 - 1`, but the target aligned
`After` it gets near edge `-2^31`, not `2^31 - 1 + 1` (the `as i32` cast of
the width wraps). -/
theorem after_far_edge_counterexample :
    Rectangle.bottom_right ⟨⟨0, 0⟩, ⟨2147483648, 1⟩⟩ = some ⟨2147483647, 0⟩
    ∧ (align_to ⟨⟨0, 0⟩, ⟨1, 1⟩⟩ ⟨⟨0, 0⟩, ⟨2147483648, 1⟩⟩ ⟨none, some .After⟩).top_left.x
        ≠ 2147483647 + 1 := by
  decide

lemma saturating_sub_eq {a b : Int} (h1 : -2147483648 ≤ a - b) (h2 : a - b ≤ 2147483647) :
    saturating_sub a b = a - b := by
  unfold saturating_sub i32Min i32Max
  omega

lemma saturating_add_eq {a b : Int} (h1 : -2147483648 ≤ a + b) (h2 : a + b ≤ 2147483647) :
    saturating_add a b = a + b := by
  unfold saturating_add i32Min i32Max
  omega

/-- C2 (amended).  The padded bounding box applies the four margins to the
child box's edges with saturating `i32` arithmetic (a degenerate child's
right and bottom edges fall back to its top-left) and rebuilds the result
with `with_corners`.  Its width and height are never negative — in fact
they are always at least 1 — and whenever the child is non-degenerate, no
saturating clamp fires and the margins do not move an edge past its
opposite edge, the result is exactly the child box with `top`/`left`
subtracted from the top/left edges and `right`/`bottom` added to the
right/bottom edges.  When the margins do invert an edge past its opposite
edge, `with_corners` swaps the corners and yields a re-normalized rectangle
of positive extent (never a zero-extent one). -/
theorem padding_bounding_box_characterization (top right bottom left : Int) (child : Rectangle) :
    (1 ≤ (Padding.each top right bottom left child).bounding_box.size.width
      ∧ 1 ≤ (Padding.each top right bottom left child).bounding_box.size.height)
    ∧ (0 < child.size.width → 0 < child.size.height →
        i32Min ≤ child.top_left.x - left →
        child.top_left.x + (child.size.width : Int) - 1 + right ≤ i32Max →
        i32Min ≤ child.top_left.y - top →
        child.top_left.y + (child.size.height : Int) - 1 + bottom ≤ i32Max →
        child.top_left.x - left ≤ child.top_left.x + (child.size.width : Int) - 1 + right →
        child.top_left.y - top ≤ child.top_left.y + (child.size.height : Int) - 1 + bottom →
        (Padding.each top right bottom left child).bounding_box
          = ⟨⟨child.top_left.x - left, child.top_left.y - top⟩,
             ⟨((child.size.width : Int) + left + right).toNat,
              ((child.size.height : Int) + top + bottom).toNat⟩⟩) := by
  constructor
  · simp only [Padding.bounding_box, Padding.each, rect_with_padding, Rectangle.with_corners]
    omega
  · intro hw hh h1 h2 h3 h4 h5 h6
    simp only [i32Min, i32Max] at h1 h2 h3 h4
    rcases child with ⟨⟨x, y⟩, ⟨w, h⟩⟩
    dsimp only at hw hh h1 h2 h3 h4 h5 h6 ⊢
    have hbr : Rectangle.bottom_right ⟨⟨x, y⟩, ⟨w, h⟩⟩ = some ⟨x + (w : Int) - 1, y + (h : Int) - 1⟩ := by
      unfold Rectangle.bottom_right
      rw [if_pos ⟨hw, hh⟩]
    simp only [Padding.bounding_box, Padding.each, rect_with_padding, hbr, Option.getD_some]
    rw [saturating_sub_eq (by omega) (by omega), saturating_add_eq (by omega) (by omega),
      saturating_add_eq (by omega) (by omega), saturating_sub_eq (by omega) (by omega)]
    rw [with_corners_of_le (by dsimp only; omega) (by dsimp only; omega)]
    simp only [Rectangle.mk.injEq, Point.mk.injEq, Size.mk.injEq, true_and, and_self, and_true]
    omega

/-- Witness for C2: uniform margin 2 around the child box
`{(10, 13), 5 × 8}` expands every edge by 2. -/
theorem padding_bounding_box_characterization_witness :
    (Padding.each 2 2 2 2 ⟨⟨10, 13⟩, ⟨5, 8⟩⟩).bounding_box = ⟨⟨8, 11⟩, ⟨9, 12⟩⟩ := by
  have h := (padding_bounding_box_characterization 2 2 2 2 ⟨⟨10, 13⟩, ⟨5, 8⟩⟩).2
    (by decide) (by decide) (by decide) (by decide) (by decide) (by decide)
    (by decide) (by decide)
  rw [h]
  decide

/-- C2 counterexample: margins `all(-4)` on the child box `{(10, 13), 5 × 8}`
move the left edge (10 + 4 = 14) past the right edge (14 - 4 = 10), yet
the resulting bounding box is the re-normalized `{(10, 16), 5 × 2}` — a
positive-width rectangle, not a zero-extent one. -/
theorem padding_zero_extent_counterexample :
    (Padding.all (-4) ⟨⟨10, 13⟩, ⟨5, 8⟩⟩).bounding_box = ⟨⟨10, 16⟩, ⟨5, 2⟩⟩
    ∧ (Padding.all (-4) ⟨⟨10, 13⟩, ⟨5, 8⟩⟩).bounding_box.size.width ≠ 0
    ∧ ¬ ((10 : Int) - (-4) ≤ 14 + (-4)) := by
  decide

/-- C9 (amended).  For a rectangle `r` with positive width and height whose
edges are representable in `i32`, and a margin `N` such that padding by `N`
neither inverts an edge past its opposite edge nor hits a saturating clamp,
`Padding::all(-N, ·)` applied to the bounding box of `Padding::all(N, r)`
restores `r` exactly; and concretely `Padding::all(-1, ·)` on
`{(10, 13), 5 × 8}` yields `{(11, 14), 3 × 6}`.  (For a degenerate `r` the
round trip does not restore `r`: the padded box is rebuilt through
`with_corners` and is never degenerate.) -/
theorem padding_round_trip (n : Int) (r : Rectangle)
    (hw : 0 < r.size.width) (hh : 0 < r.size.height)
    (h1 : i32Min ≤ r.top_left.x - n) (h2 : r.top_left.x + (r.size.width : Int) - 1 + n ≤ i32Max)
    (h3 : i32Min ≤ r.top_left.y - n) (h4 : r.top_left.y + (r.size.height : Int) - 1 + n ≤ i32Max)
    (h5 : r.top_left.x - n ≤ r.top_left.x + (r.size.width : Int) - 1 + n)
    (h6 : r.top_left.y - n ≤ r.top_left.y + (r.size.height : Int) - 1 + n)
    (h7 : i32Min ≤ r.top_left.x) (h8 : r.top_left.x + (r.size.width : Int) - 1 ≤ i32Max)
    (h9 : i32Min ≤ r.top_left.y) (h10 : r.top_left.y + (r.size.height : Int) - 1 ≤ i32Max) :
    (Padding.all (-n) (Padding.all n r).bounding_box).bounding_box = r
    ∧ (Padding.all (-1) (⟨⟨10, 13⟩, ⟨5, 8⟩⟩ : Rectangle)).bounding_box = ⟨⟨11, 14⟩, ⟨3, 6⟩⟩ := by
  refine ⟨?_, by decide⟩
  simp only [i32Min, i32Max] at h1 h2 h3 h4 h7 h8 h9 h10
  rcases r with ⟨⟨x, y⟩, ⟨w, h⟩⟩
  dsimp only at hw hh h1 h2 h3 h4 h5 h6 h7 h8 h9 h10 ⊢
  have hbr : Rectangle.bottom_right ⟨⟨x, y⟩, ⟨w, h⟩⟩
      = some ⟨x + (w : Int) - 1, y + (h : Int) - 1⟩ := by
    unfold Rectangle.bottom_right
    rw [if_pos ⟨hw, hh⟩]
  have hinner : (Padding.all n ⟨⟨x, y⟩, ⟨w, h⟩⟩).bounding_box
      = ⟨⟨x - n, y - n⟩, ⟨(x + (w : Int) - 1 + n - (x - n) + 1).toNat,
          (y + (h : Int) - 1 + n - (y - n) + 1).toNat⟩⟩ := by
    simp only [Padding.all, Padding.bounding_box, rect_with_padding, hbr, Option.getD_some]
    rw [saturating_sub_eq (by omega) (by omega), saturating_add_eq (by omega) (by omega),
      saturating_add_eq (by omega) (by omega), saturating_sub_eq (by omega) (by omega)]
    rw [with_corners_of_le (by dsimp only; omega) (by dsimp only; omega)]
  rw [hinner]
  have hw2 : 0 < (x + (w : Int) - 1 + n - (x - n) + 1).toNat := by omega
  have hh2 : 0 < (y + (h : Int) - 1 + n - (y - n) + 1).toNat := by omega
  have hbr2 : Rectangle.bottom_right ⟨⟨x - n, y - n⟩,
        ⟨(x + (w : Int) - 1 + n - (x - n) + 1).toNat,
         (y + (h : Int) - 1 + n - (y - n) + 1).toNat⟩⟩
      = some ⟨x + (w : Int) - 1 + n, y + (h : Int) - 1 + n⟩ := by
    unfold Rectangle.bottom_right
    rw [if_pos ⟨hw2, hh2⟩]
    simp only [Option.some.injEq, Point.mk.injEq]
    constructor <;> dsimp only <;> omega
  simp only [Padding.all, Padding.bounding_box, rect_with_padding, hbr2, Option.getD_some]
  rw [saturating_sub_eq (by omega) (by omega), saturating_add_eq (by omega) (by omega),
    saturating_add_eq (by omega) (by omega), saturating_sub_eq (by omega) (by omega)]
  rw [with_corners_of_le (by dsimp only; omega) (by dsimp only; omega)]
  simp only [Rectangle.mk.injEq, Point.mk.injEq, Size.mk.injEq, true_and, and_self, and_true]
  omega

/-- Witness for C9: margin 2 around `{(10, 13), 5 × 8}` and back. -/
theorem padding_round_trip_witness :
    (Padding.all (-2) (Padding.all 2 (⟨⟨10, 13⟩, ⟨5, 8⟩⟩ : Rectangle)).bounding_box).bounding_box
      = ⟨⟨10, 13⟩, ⟨5, 8⟩⟩ :=
  (padding_round_trip 2 ⟨⟨10, 13⟩, ⟨5, 8⟩⟩ (by decide) (by decide) (by decide) (by decide)
    (by decide) (by decide) (by decide) (by decide) (by decide) (by decide) (by decide)
    (by decide)).1

/-- C9 counterexample: for the degenerate rectangle `{(0, 0), 0 × 0}` (no
edge inverts when padding by `N = 1`), the round trip yields the 1 × 1
rectangle at the origin, not the original degenerate one. -/
theorem padding_round_trip_counterexample :
    (Padding.all (-1) (Padding.all 1 (⟨⟨0, 0⟩, ⟨0, 0⟩⟩ : Rectangle)).bounding_box).bounding_box
      ≠ ⟨⟨0, 0⟩, ⟨0, 0⟩⟩ := by
  decide

/-- C6.  The composite's styled draw runs child A first against the target,
then child B against the target A left behind, with the same style.  If A
fails, its error is returned with A's target state, and B is never drawn
(the result is the same for every B).  If A succeeds and B fails, B's error
is propagated unmodified and A's effect on the target is kept (no
rollback).  On success the result pairs A's and B's outputs. -/
theorem component_draw_styled_semantics {Sty Tgt Err OutA OutB : Type}
    (draw_a : Sty → Tgt → Tgt × Except Err OutA) (style : Sty) (target : Tgt) :
    (∀ (draw_b : Sty → Tgt → Tgt × Except Err OutB) t1 e,
        draw_a style target = (t1, .error e) →
        Component.draw_styled draw_a draw_b style target = (t1, .error e))
    ∧ (∀ (draw_b draw_b' : Sty → Tgt → Tgt × Except Err OutB) t1 e,
        draw_a style target = (t1, .error e) →
        Component.draw_styled draw_a draw_b style target
          = Component.draw_styled draw_a draw_b' style target)
    ∧ (∀ (draw_b : Sty → Tgt → Tgt × Except Err OutB) t1 a t2 e,
        draw_a style target = (t1, .ok a) → draw_b style t1 = (t2, .error e) →
        Component.draw_styled draw_a draw_b style target = (t2, .error e))
    ∧ (∀ (draw_b : Sty → Tgt → Tgt × Except Err OutB) t1 a t2 b,
        draw_a style target = (t1, .ok a) → draw_b style t1 = (t2, .ok b) →
        Component.draw_styled draw_a draw_b style target = (t2, .ok (a, b))) := by
  refine ⟨?_, ?_, ?_, ?_⟩
  · intro draw_b t1 e ha
    simp only [Component.draw_styled, ha]
  · intro draw_b draw_b' t1 e ha
    simp only [Component.draw_styled, ha]
  · intro draw_b t1 a t2 e ha hb
    simp only [Component.draw_styled, ha, hb]
  · intro draw_b t1 a t2 b ha hb
    simp only [Component.draw_styled, ha, hb]

/-- Witness for C6: a first child that succeeds after mutating the target,
and a second child that fails on the target the first one produced — the
composite propagates the second child's error and the first child's target
mutation. -/
theorem component_draw_styled_semantics_witness :
    Component.draw_styled (fun _s t => (t + 1, Except.ok 5))
      ((fun _s t => (t + 2, Except.error 7)) : Nat → Nat → Nat × Except Nat Nat)
      (0 : Nat) (0 : Nat) = (3, Except.error 7) :=
  (component_draw_styled_semantics (fun _s t => (t + 1, Except.ok 5)) 0 0).2.2.1
    (fun _s t => (t + 2, Except.error 7)) 1 5 3 7 rfl rfl

/-- C7: the code contradicts the claim.  The value-returning
`Padding::translate` assigns `left: self.bottom` (src/padding.rs line 130),
so translating `Padding::each(1, 2, 3, 4, ·)` changes the left margin from
4 to 3, and the resulting padded bounding box is not the pre-translation
padded bounding box shifted by the vector; `translate_mut`, which the claim
also covers, does preserve all four margins, so the two translation paths
disagree. -/
theorem padding_translate_left_margin_bug :
    (Padding.translate (Padding.each 1 2 3 4 ⟨⟨0, 0⟩, ⟨1, 1⟩⟩) ⟨5, 7⟩).left = 3
    ∧ (Padding.translate_mut (Padding.each 1 2 3 4 ⟨⟨0, 0⟩, ⟨1, 1⟩⟩) ⟨5, 7⟩).left = 4
    ∧ Padding.translate (Padding.each 1 2 3 4 ⟨⟨0, 0⟩, ⟨1, 1⟩⟩) ⟨5, 7⟩
        ≠ Padding.translate_mut (Padding.each 1 2 3 4 ⟨⟨0, 0⟩, ⟨1, 1⟩⟩) ⟨5, 7⟩
    ∧ (Padding.translate (Padding.each 1 2 3 4 ⟨⟨0, 0⟩, ⟨1, 1⟩⟩) ⟨5, 7⟩).bounding_box
        ≠ ((Padding.each 1 2 3 4 ⟨⟨0, 0⟩, ⟨1, 1⟩⟩).bounding_box).translate ⟨5, 7⟩
    ∧ (Padding.translate_mut (Padding.each 1 2 3 4 ⟨⟨0, 0⟩, ⟨1, 1⟩⟩) ⟨5, 7⟩).bounding_box
        = ((Padding.each 1 2 3 4 ⟨⟨0, 0⟩, ⟨1, 1⟩⟩).bounding_box).translate ⟨5, 7⟩ := by
  decide

lemma axisOffsetChecked_eq_some (pos : Option AlignmentPosition) (tlo : Int) (tlen : Nat)
    (rlo : Int) (rlen : Nat)
    (ht1 : tlo.natAbs < 536870912) (ht2 : tlen < 536870912)
    (hr1 : rlo.natAbs < 536870912) (hr2 : rlen < 536870912) :
    axisOffsetChecked pos tlo tlen rlo rlen = some (axisOffset pos tlo tlen rlo rlen) := by
  have et : u32AsI32 tlen = (tlen : Int) := u32AsI32_of_le (by omega)
  have er : u32AsI32 rlen = (rlen : Int) := u32AsI32_of_le (by omega)
  have dt : ((tlen : Int)).tdiv 2 = ((tlen / 2 : Nat) : Int) := natCast_tdiv_two tlen
  have dr : ((rlen : Int)).tdiv 2 = ((rlen / 2 : Nat) : Int) := natCast_tdiv_two rlen
  cases pos with
  | none => rfl
  | some p =>
    cases p
    case Start =>
      simp only [axisOffsetChecked, axisOffset]
      exact chk32_eq_some (by unfold i32Min; omega) (by unfold i32Max; omega)
    case Center =>
      simp only [axisOffsetChecked, axisOffset, et, er, dt, dr,
        chk32_eq_some (n := rlo + ((rlen / 2 : Nat) : Int)) (by unfold i32Min; omega)
          (by unfold i32Max; omega),
        chk32_eq_some (n := tlo + ((tlen / 2 : Nat) : Int)) (by unfold i32Min; omega)
          (by unfold i32Max; omega), Option.some_bind]
      exact chk32_eq_some (by unfold i32Min; omega) (by unfold i32Max; omega)
    case End =>
      simp only [axisOffsetChecked, axisOffset, et, er,
        chk32_eq_some (n := rlo + (rlen : Int)) (by unfold i32Min; omega)
          (by unfold i32Max; omega),
        chk32_eq_some (n := tlo + (tlen : Int)) (by unfold i32Min; omega)
          (by unfold i32Max; omega), Option.some_bind]
      exact chk32_eq_some (by unfold i32Min; omega) (by unfold i32Max; omega)
    case Before =>
      simp only [axisOffsetChecked, axisOffset, et, er,
        chk32_eq_some (n := tlo + (tlen : Int)) (by unfold i32Min; omega)
          (by unfold i32Max; omega), Option.some_bind]
      exact chk32_eq_some (by unfold i32Min; omega) (by unfold i32Max; omega)
    case After =>
      simp only [axisOffsetChecked, axisOffset, et, er,
        chk32_eq_some (n := rlo + (rlen : Int)) (by unfold i32Min; omega)
          (by unfold i32Max; omega), Option.some_bind]
      exact chk32_eq_some (by unfold i32Min; omega) (by unfold i32Max; omega)

/-- C8 (amended).  On rectangles whose coordinates and extents are bounded
by `2^29` in magnitude — a domain on which no intermediate plain `i32`
operation can leave the `i32` range — `Alignment::offset` is total and
pure: the overflow-checked computation succeeds and returns the offset
point, for every alignment and with no special-casing of degenerate
rectangles.  It is not total on all inputs: the plain (non-saturating)
`i32` subtractions and additions can overflow, so a build with overflow
checks panics on extreme inputs (see the counterexample). -/
theorem offset_total_in_range (a : Alignment) (target reference : Rectangle)
    (h1 : target.top_left.x.natAbs < 536870912) (h2 : target.top_left.y.natAbs < 536870912)
    (h3 : target.size.width < 536870912) (h4 : target.size.height < 536870912)
    (h5 : reference.top_left.x.natAbs < 536870912) (h6 : reference.top_left.y.natAbs < 536870912)
    (h7 : reference.size.width < 536870912) (h8 : reference.size.height < 536870912) :
    a.offsetChecked target reference = some (a.offset target reference) := by
  unfold Alignment.offsetChecked Alignment.offset
  rw [axisOffsetChecked_eq_some _ _ _ _ _ h1 h3 h5 h7,
    axisOffsetChecked_eq_some _ _ _ _ _ h2 h4 h6 h8]
  rfl

/-- Witness for C8 at a concrete centered alignment of a degenerate target. -/
theorem offset_total_in_range_witness :
    Alignment.offsetChecked ⟨some .Center, some .Center⟩ ⟨⟨0, 0⟩, ⟨0, 0⟩⟩ ⟨⟨30, 20⟩, ⟨11, 31⟩⟩
      = some (Alignment.offset ⟨some .Center, some .Center⟩ ⟨⟨0, 0⟩, ⟨0, 0⟩⟩ ⟨⟨30, 20⟩, ⟨11, 31⟩⟩) :=
  offset_total_in_range _ _ _ (by decide) (by decide) (by decide) (by decide) (by decide)
    (by decide) (by decide) (by decide)

/-- C8 counterexample: aligning `Start` with target x = `-2^31` and
reference x = `2^31 - 1` makes the subtraction
`reference.top_left.x - target.top_left.x` overflow `i32` (its exact value
is `2^32 - 1`), so the overflow-checked offset computation fails — `offset`
is not total over all input rectangles, contrary to the claim. -/
theorem offset_overflow_counterexample :
    Alignment.offsetChecked ⟨none, some .Start⟩ ⟨⟨-2147483648, 0⟩, ⟨1, 1⟩⟩
      ⟨⟨2147483647, 0⟩, ⟨1, 1⟩⟩ = none := by
  decide

/-- C10 (amended).  For every gap `g`, measured size `s` (a `u32`) and
object count `n`: `modify_measurement` returns `s` unchanged when `n = 0`,
and when `n > 0` it returns `s + g * (n - 1)` reduced modulo `2^32` (the
`u32 as i32` / `as u32` cast chain computes in two's complement), which
equals `s + g * (n - 1)` exactly whenever that value lies in `[0, 2^32)`;
`modify_placement` returns 0 for index 0 and `g` for every positive index,
also for negative `g`. -/
theorem fixed_margin_spacing (g : Int) (s n k ts ts' : Nat) (_hs : s < 4294967296) :
    FixedMargin.modify_measurement g s 0 = s
    ∧ (0 < n → (FixedMargin.modify_measurement g s n : Int)
        = ((s : Int) + g * ((n : Int) - 1)) % 4294967296)
    ∧ (0 < n → 0 ≤ (s : Int) + g * ((n : Int) - 1) →
        (s : Int) + g * ((n : Int) - 1) < 4294967296 →
        (FixedMargin.modify_measurement g s n : Int) = (s : Int) + g * ((n : Int) - 1))
    ∧ FixedMargin.modify_placement g 0 ts = 0
    ∧ (0 < k → FixedMargin.modify_placement g k ts' = g) := by
  have base : ∀ m : Nat, 0 < m → (FixedMargin.modify_measurement g s m : Int)
      = ((s : Int) + g * ((m : Int) - 1)) % 4294967296 := by
    intro m hm
    unfold FixedMargin.modify_measurement
    rw [if_neg (by omega)]
    unfold i32AsU32
    rw [Int.toNat_of_nonneg (Int.emod_nonneg _ (by norm_num))]
    have e1 : u32AsI32 s % 4294967296 = (s : Int) % 4294967296 := by
      unfold u32AsI32
      exact wrap32_emod _
    have e2 : usizeAsI32 (m - 1) % 4294967296 = ((m : Int) - 1) % 4294967296 := by
      unfold usizeAsI32
      rw [wrap32_emod]
      have hcast : ((m - 1 : Nat) : Int) = (m : Int) - 1 := by omega
      rw [hcast]
    exact Int.ModEq.add e1 (Int.ModEq.mul_left g e2)
  refine ⟨?_, base n, ?_, ?_, ?_⟩
  · rfl
  · intro hn hlo hhi
    rw [base n hn, Int.emod_eq_of_lt hlo hhi]
  · rfl
  · intro hk
    unfold FixedMargin.modify_placement
    rw [if_neg (by omega)]

/-- Witness for C10: gap 3, measured size 10, two objects, placement
indices 0 and 1. -/
theorem fixed_margin_spacing_witness :
    (FixedMargin.modify_measurement 3 10 2 : Int) = ((10 : Int) + 3 * ((2 : Int) - 1)) % 4294967296
    ∧ FixedMargin.modify_placement 3 1 99 = 3 :=
  ⟨(fixed_margin_spacing 3 10 2 1 0 99 (by decide)).2.1 (by decide),
   (fixed_margin_spacing 3 10 2 1 0 99 (by decide)).2.2.2.2 (by decide)⟩

/-- C10 counterexample: with gap `g = -1`, measured size `s = 0` and
`n = 2` objects, the claimed value `s + g * (n - 1)` is `-1`, but the
code's cast chain (`as u32` on a negative `i32`) returns `4294967295`. -/
theorem fixed_margin_measurement_counterexample :
    (FixedMargin.modify_measurement (-1) 0 2 : Int) ≠ (0 : Int) + (-1) * ((2 : Int) - 1) := by
  decide

end EmbeddedLayout
